import Mathlib

/-!
Verification development for the NewspaperGenerator repository.

The repository scrapes article content from URLs and composes the results
into a multi-column PDF newspaper.  Its core is a two-stage pipeline:

1. article_fetcher.py : heuristic extraction of an Article record
   (title, author, date, body markup) from parsed HTML, with a
   site-specific strategy for Substack pages and a generic strategy
   for everything else;
2. pdf_generator.py : classification of the extracted markup into typed
   content blocks and layout of all articles into a single flowing story;
   make_newspaper.py drives the per-URL fetch loop.

The development below shallowly embeds this code.  HTML parsing is an
external library (BeautifulSoup); the embedding therefore works on the
parsed document tree directly.  Each definition mirrors one piece of the
Python source; claims about the program are then settled as theorems.
-/

namespace NewsGen

/-- Parsed HTML node, as produced by BeautifulSoup: either a navigable
string or a tag with a name, attributes and children.  Attributes are an
association list; the class attribute keeps its raw string value and is
split on whitespace where BeautifulSoup treats it as multi-valued. -/
inductive Node where
  | text (s : String)
  | elem (tag : String) (attrs : List (String × String)) (children : List Node)

/-- True for tag nodes; models hasattr(x, name) checks that distinguish
Tag objects from NavigableString objects in the source. -/
def Node.isTag : Node → Bool
  | .text _ => false
  | .elem _ _ _ => true

/-- Tag name of a node; none for navigable strings. -/
def Node.tagName : Node → Option String
  | .text _ => none
  | .elem t _ _ => some t

/-- Children of a node; navigable strings have none. -/
def Node.childrenL : Node → List Node
  | .text _ => []
  | .elem _ _ c => c

/-- Attribute lookup, modelling tag.get(key): first binding wins, none
when the attribute is absent. -/
def Node.getAttr : Node → String → Option String
  | .text _, _ => none
  | .elem _ attrs _, key => attrs.lookup key

/-- Character-level scan splitting a list on whitespace runs. -/
def wordsAux : List Char → List Char → List String
  | [], acc => if acc.isEmpty then [] else [⟨acc.reverse⟩]
  | c :: rest, acc =>
    if c.isWhitespace then
      if acc.isEmpty then wordsAux rest [] else ⟨acc.reverse⟩ :: wordsAux rest []
    else wordsAux rest (c :: acc)

/-- Splits an attribute value on whitespace, as BeautifulSoup does for
multi-valued attributes such as class and rel. -/
def splitWords (s : String) : List String :=
  wordsAux s.data []

/-- List of CSS classes of a node (empty when no class attribute). -/
def Node.classes (n : Node) : List String :=
  match n.getAttr "class" with
  | some v => splitWords v
  | none => []

/-- Models BeautifulSoup matching of a string against a multi-valued
attribute: the given word must be one of the whitespace-separated values. -/
def Node.attrHasWord (n : Node) (key w : String) : Bool :=
  match n.getAttr key with
  | some v => (splitWords v).contains w
  | none => false

/-- Models the class_ = "value" filter of BeautifulSoup. -/
def Node.hasClassWord (n : Node) (c : String) : Bool :=
  n.attrHasWord "class" c

/-- Decides whether pat occurs as a prefix of l; character-level model of
the Python str.startswith test. -/
def matchesAt : List Char → List Char → Bool
  | [], _ => true
  | _ :: _, [] => false
  | p :: ps, c :: cs => p == c && matchesAt ps cs

/-- Auxiliary scan for substring containment. -/
def containsAux (pat : List Char) : List Char → Bool
  | [] => matchesAt pat []
  | c :: rest => matchesAt pat (c :: rest) || containsAux pat rest

/-- Model of the Python substring test (pat in s). -/
def strContains (s pat : String) : Bool :=
  containsAux pat.data s.data

/-- Model of the Python str.startswith test. -/
def strStarts (s pat : String) : Bool :=
  matchesAt pat.data s.data

/-- Model of the Python str.strip method (leading and trailing
whitespace removed). -/
def pyStrip (s : String) : String :=
  ⟨(((s.data.dropWhile Char.isWhitespace).reverse).dropWhile Char.isWhitespace).reverse⟩

/-- Model of the Python str.lower method. -/
def pyLower (s : String) : String :=
  ⟨s.data.map Char.toLower⟩

mutual
/-- All navigable strings below a node, in document order. -/
def Node.texts : Node → List String
  | .text s => [s]
  | .elem _ _ children => textsOfList children
/-- All navigable strings below a list of nodes, in document order. -/
def textsOfList : List Node → List String
  | [] => []
  | n :: rest => n.texts ++ textsOfList rest
end

/-- Models tag.get_text(): concatenation of all contained strings. -/
def getTextRaw (n : Node) : String :=
  String.join n.texts

/-- Models tag.get_text with strip set: each contained string is stripped
and the results are concatenated. -/
def getTextStrip (n : Node) : String :=
  String.join (n.texts.map pyStrip)

mutual
/-- Pre-order search for the first tag satisfying p, including the node
itself; models soup.find restricted to tags. -/
def findFirst (p : Node → Bool) : Node → Option Node
  | .text _ => none
  | .elem t a c =>
    if p (.elem t a c) then some (.elem t a c) else findFirstList p c
/-- Pre-order search over a list of sibling subtrees. -/
def findFirstList (p : Node → Bool) : List Node → Option Node
  | [] => none
  | n :: rest =>
    match findFirst p n with
    | some r => some r
    | none => findFirstList p rest
end

/-- Models tag.find(...): searches the descendants of a node, not the
node itself. -/
def Node.findInside (n : Node) (p : Node → Bool) : Option Node :=
  findFirstList p n.childrenL

mutual
/-- Pre-order collection of all tags satisfying p; models soup.find_all. -/
def findAll (p : Node → Bool) : Node → List Node
  | .text _ => []
  | .elem t a c =>
    (if p (.elem t a c) then [Node.elem t a c] else []) ++ findAllList p c
/-- Pre-order collection over a list of sibling subtrees. -/
def findAllList (p : Node → Bool) : List Node → List Node
  | [] => []
  | n :: rest => findAll p n ++ findAllList p rest
end

mutual
/-- Rebuilds a node after removing every descendant tag matching p;
models the find_all plus decompose pattern of the source. -/
def stripMatching (p : Node → Bool) : Node → Node
  | .text s => .text s
  | .elem t a c => .elem t a (stripMatchingList p c)
/-- Removal pass over a list of sibling subtrees: a matching tag is
dropped with its whole subtree, anything else is kept and cleaned. -/
def stripMatchingList (p : Node → Bool) : List Node → List Node
  | [] => []
  | n :: rest =>
    if n.isTag && p n then stripMatchingList p rest
    else stripMatching p n :: stripMatchingList p rest
end

/-- True when the tag name of the node is one of the given names. -/
def tagIn (names : List String) (n : Node) : Bool :=
  match n.tagName with
  | some t => names.contains t
  | none => false

/-!
Embedding of article_fetcher.py.  A fetched page is the parsed document,
a list of top-level nodes; the network is abstracted as a partial map
from URLs to documents, with absence modelling an HTTP or network error
(requests.get raising or raise_for_status firing).
-/

/-- Article record returned by the extraction functions.  The content
field holds the sanitized content container as a parsed tree: the source
serializes the container back to a string and the PDF stage re-parses it,
a round trip through the external parser that the embedding elides.  An
empty list models the empty content string produced when no container
was found. -/
structure Article where
  title : String
  author : String
  date : String
  content : List Node
  url : String

/-- Truthiness of an optional Python string: None and the empty string
are falsy. -/
def pyTruthy : Option String → Bool
  | none => false
  | some s => !(s == "")

/-- Models the Python expression a or b for an optional string a and a
string default b. -/
def pyOr (a : Option String) (b : String) : String :=
  match a with
  | none => b
  | some s => if s == "" then b else s

/-- is_substack_url: the string substack.com occurs somewhere in the URL. -/
def isSubstackUrl (url : String) : Bool :=
  strContains url "substack.com"

/-- Author display string composition from fetch_substack_article: both
resolved and different gives the long form, a resolved author alone the
short form, otherwise the placeholder. -/
def formatAuthor (author publication : Option String) : String :=
  if pyTruthy author && pyTruthy publication && author != publication then
    "Written by " ++ author.getD "" ++ " from " ++ publication.getD ""
  else if pyTruthy author then
    "Written by " ++ author.getD ""
  else
    "Unknown Author"

/-- Substack title heuristic: an h1 carrying the post-title class, else
the document title element. -/
def findTitleSubstack (doc : List Node) : Option String :=
  match findFirstList (fun n => n.tagName == some "h1" && n.hasClassWord "post-title") doc with
  | some t => some (getTextStrip t)
  | none =>
    match findFirstList (fun n => n.tagName == some "title") doc with
    | some t => some (getTextStrip t)
    | none => none

/-- Substack publication heuristic: inside the first h1 whose class list
has a class containing the substring title, take the first link to the
site root; use its text, or, when that is empty, the alt text of an
image inside the link if that alt text is non-empty. -/
def findPublication (doc : List Node) : Option String :=
  match findFirstList
      (fun n => n.tagName == some "h1" &&
        n.classes.any (fun cl => strContains cl "title")) doc with
  | none => none
  | some h =>
    match h.findInside (fun n => n.tagName == some "a" && n.getAttr "href" == some "/") with
    | none => none
    | some link =>
      let t := getTextStrip link
      if t == "" then
        match link.findInside (fun n => n.tagName == some "img" && (n.getAttr "alt").isSome) with
        | some img =>
          match img.getAttr "alt" with
          | some alt => if alt == "" then some t else some alt
          | none => some t
        | none => some t
      else some t

/-- First non-empty stripped text among a list of link nodes. -/
def firstNonemptyText : List Node → Option String
  | [] => none
  | l :: rest =>
    let t := getTextStrip l
    if t == "" then firstNonemptyText rest else some t

/-- Substack author heuristic: among all links whose href starts with the
Substack profile URL scheme, the text of the first one with non-empty
text. -/
def findAuthor (doc : List Node) : Option String :=
  firstNonemptyText
    (findAllList
      (fun n => n.tagName == some "a" &&
        (match n.getAttr "href" with
         | some h => !(h == "") && strStarts h "https://substack.com/@"
         | none => false)) doc)

/-- Date heuristic shared by both strategies: the first time element,
preferring its datetime attribute over its displayed text. -/
def findDate (doc : List Node) : Option String :=
  match findFirstList (fun n => n.tagName == some "time") doc with
  | none => none
  | some t => some (pyOr (t.getAttr "datetime") (getTextStrip t))

/-- Substack content container: a div classed available-content, else a
div classed body, else the first article element. -/
def findContentSubstack (doc : List Node) : Option Node :=
  match findFirstList (fun n => n.tagName == some "div" && n.hasClassWord "available-content") doc with
  | some d => some d
  | none =>
    match findFirstList (fun n => n.tagName == some "div" && n.hasClassWord "body") doc with
    | some d => some d
    | none => findFirstList (fun n => n.tagName == some "article") doc

/-- Sanitizes a content container by removing the given tags from its
descendants, as the find_all plus decompose loops do. -/
def sanitizeContainer (names : List String) (d : Node) : Node :=
  match d with
  | .text s => .text s
  | .elem t a c => .elem t a (stripMatchingList (tagIn names) c)

/-- Pure extraction part of fetch_substack_article, applied to an already
fetched and parsed document. -/
def extractSubstack (doc : List Node) (url : String) : Article :=
  let title := findTitleSubstack doc
  let publication := findPublication doc
  let author := findAuthor doc
  let authorStr := formatAuthor author publication
  let date := findDate doc
  let content :=
    match findContentSubstack doc with
    | some d => [sanitizeContainer ["script", "style", "button", "form"] d]
    | none => []
  { title := pyOr title "Untitled"
    author := pyOr (some authorStr) "Unknown Author"
    date := pyOr date ""
    content := content
    url := url }

/-- Canonical link resolution used on reader view pages: the first link
tag whose rel attribute has the value canonical, provided its href is
present and non-empty. -/
def canonicalHref (doc : List Node) : Option String :=
  match findFirstList (fun n => n.tagName == some "link" && n.attrHasWord "rel" "canonical") doc with
  | none => none
  | some lk =>
    match lk.getAttr "href" with
    | none => none
    | some h => if h == "" then none else some h

/-- fetch_substack_article over an abstract web.  The source recurses on
the canonical URL of reader view pages with no hop limit; fuel makes the
recursion well founded in the embedding, with the result none meaning
that the source would still be recursing after that many fetches.  An
error value models requests raising for a failed fetch. -/
def fetchSubstackF (web : String → Option (List Node)) : Nat → String → Option (Except String Article)
  | 0, _ => none
  | fuel + 1, url =>
    match web url with
    | none => some (.error "fetch failed")
    | some doc =>
      if strContains url "/home/post/" then
        match canonicalHref doc with
        | some href => fetchSubstackF web fuel href
        | none => some (.ok (extractSubstack doc url))
      else some (.ok (extractSubstack doc url))

/-- General title heuristic: first h1, else the document title element. -/
def findTitleGeneral (doc : List Node) : Option String :=
  match findFirstList (fun n => n.tagName == some "h1") doc with
  | some t => some (getTextStrip t)
  | none =>
    match findFirstList (fun n => n.tagName == some "title") doc with
    | some t => some (getTextStrip t)
    | none => none

/-- General author heuristic: the content attribute of a meta tag named
author; absent attribute or absent tag leaves the author unresolved. -/
def findAuthorGeneral (doc : List Node) : Option String :=
  match findFirstList (fun n => n.tagName == some "meta" && n.getAttr "name" == some "author") doc with
  | none => none
  | some m => m.getAttr "content"

/-- Fallback container heuristic: the first div whose raw text is
strictly longer than that of every earlier div; none when every div has
empty text or there are no divs. -/
def longestDiv (doc : List Node) : Option Node :=
  ((findAllList (fun n => n.tagName == some "div") doc).foldl
    (fun acc d =>
      let len := (getTextRaw d).length
      if len > acc.2 then (some d, len) else acc)
    ((none : Option Node), 0)).1

/-- General content container: first match among article, div classed
article, div classed content, div classed post, main; else the longest
div fallback. -/
def findContentGeneral (doc : List Node) : Option Node :=
  match findFirstList (fun n => n.tagName == some "article") doc with
  | some d => some d
  | none =>
    match findFirstList (fun n => n.tagName == some "div" && n.hasClassWord "article") doc with
    | some d => some d
    | none =>
      match findFirstList (fun n => n.tagName == some "div" && n.hasClassWord "content") doc with
      | some d => some d
      | none =>
        match findFirstList (fun n => n.tagName == some "div" && n.hasClassWord "post") doc with
        | some d => some d
        | none =>
          match findFirstList (fun n => n.tagName == some "main") doc with
          | some d => some d
          | none => longestDiv doc

/-- Pure extraction part of fetch_general_article. -/
def extractGeneral (doc : List Node) (url : String) : Article :=
  let title := findTitleGeneral doc
  let author := findAuthorGeneral doc
  let date := findDate doc
  let content :=
    match findContentGeneral doc with
    | some d => [sanitizeContainer ["script", "style", "nav", "header", "footer", "aside"] d]
    | none => []
  { title := pyOr title "Untitled"
    author := pyOr author "Unknown Author"
    date := pyOr date ""
    content := content
    url := url }

/-- fetch_general_article over an abstract web. -/
def fetchGeneralE (web : String → Option (List Node)) (url : String) : Except String Article :=
  match web url with
  | none => .error "fetch failed"
  | some doc => .ok (extractGeneral doc url)

/-- fetch_article: dispatch on the URL shape. -/
def fetchArticleF (web : String → Option (List Node)) (fuel : Nat) (url : String) :
    Option (Except String Article) :=
  if isSubstackUrl url then fetchSubstackF web fuel url
  else some (fetchGeneralE web url)

/-!
Embedding of html_to_flowables from pdf_generator.py.  A produced
flowable is a pair of a paragraph style name and the text placed under
that style, exactly as the source builds ReportLab Paragraph objects.
-/

/-- True for h1, h2 and h3 tags. -/
def isH123 (n : Node) : Bool :=
  tagIn ["h1", "h2", "h3"] n

/-- A heading of level 1 to 3 whose stripped text, lowercased, is the
word references. -/
def isRefHeading (n : Node) : Bool :=
  isH123 n && pyLower (getTextStrip n) == "references"

/-- Sibling scan of the References removal loop: deletes every following
sibling until the next heading of level 1 to 3, which is kept along with
everything after it. -/
def deleteUntilHeading : List Node → List Node
  | [] => []
  | n :: rest => if isH123 n then n :: rest else deleteUntilHeading rest

mutual
/-- References removal inside one subtree; the flag reports whether a
References heading was found, since the source breaks after the first. -/
def removeRefsNode : Node → Node × Bool
  | .text s => (.text s, false)
  | .elem t a c =>
    let r := removeRefsList c
    (.elem t a r.1, r.2)
/-- References removal over a list of sibling subtrees, scanning in
document order: a node is tested before its descendants. -/
def removeRefsList : List Node → List Node × Bool
  | [] => ([], false)
  | n :: rest =>
    if isRefHeading n then (deleteUntilHeading rest, true)
    else
      let rn := removeRefsNode n
      if rn.2 then (rn.1 :: rest, true)
      else
        let rr := removeRefsList rest
        (rn.1 :: rr.1, rr.2)
end

mutual
/-- Whether a subtree holds a References heading anywhere. -/
def hasRefHeading : Node → Bool
  | .text _ => false
  | .elem t a c => isRefHeading (.elem t a c) || hasRefHeadingList c
/-- Whether a list of subtrees holds a References heading anywhere. -/
def hasRefHeadingList : List Node → Bool
  | [] => false
  | n :: rest => hasRefHeading n || hasRefHeadingList rest
end

/-- List rendering loop of process_element: walks the direct li children,
skipping items with empty text; ordered lists are numbered by the count
of already emitted items plus one, unordered ones get a bullet. -/
def listItemsGo (isOl : Bool) (acc : List (String × String)) : List Node → List (String × String)
  | [] => acc
  | li :: rest =>
    let t := getTextStrip li
    if t == "" then listItemsGo isOl acc rest
    else
      listItemsGo isOl
        (acc ++ [("ColumnBody",
          (if isOl then toString (acc.length + 1) ++ "." else "•") ++ " " ++ t)])
        rest

mutual
/-- process_element: maps one element to its flowables. -/
def processElement (n : Node) : List (String × String) :=
  match n with
  | .text _ => []
  | .elem tag _ children =>
    if tag == "p" then
      let t := getTextStrip n
      if t == "" then [] else [("ColumnBody", t)]
    else if tag == "h1" || tag == "h2" then
      let t := getTextStrip n
      if t == "" then [] else [("ArticleHeading", t)]
    else if tag == "h3" then
      let t := getTextStrip n
      if t == "" then [] else [("ArticleSubheading", t)]
    else if tag == "blockquote" then
      let t := getTextStrip n
      if t == "" then [] else [("Quote", t)]
    else if tag == "ul" || tag == "ol" then
      listItemsGo (tag == "ol") [] (children.filter (fun c => c.tagName == some "li"))
    else if tag == "div" then
      processList children
    else []
/-- Walk over the children of a div or of the top level: only tag
children produce flowables. -/
def processList : List Node → List (String × String)
  | [] => []
  | c :: rest => (if c.isTag then processElement c else []) ++ processList rest
end

/-- html_to_flowables applied to an already parsed markup fragment:
remove unwanted tags, remove subscription widgets, remove the first
References section, then classify the children of the body element or of
the fragment root. -/
def htmlToFlowables (nodes : List Node) : List (String × String) :=
  let ns1 := stripMatchingList (tagIn ["script", "style", "button", "form", "nav"]) nodes
  let ns2 := stripMatchingList
    (fun n => n.tagName == some "div" && n.hasClassWord "subscription-widget-wrap") ns1
  let ns3 := (removeRefsList ns2).1
  let top :=
    match findFirstList (fun n => n.tagName == some "body") ns3 with
    | some b => b.childrenL
    | none => ns3
  processList top

/-!
Embedding of the story assembly in generate_newspaper_pdf and of the
fetch loop in make_newspaper.py.  The fetcher is abstracted as a function
returning either an article or an error, matching the try and except
around fetch_article; the masthead date, produced by datetime.now in the
source, is a parameter.
-/

/-- One flowable of the final story: a styled paragraph, a horizontal
rule of a given thickness in points, or a vertical spacer whose height
is given in tenths of a centimeter. -/
inductive Flow where
  | para (style : String) (text : String)
  | hline (thickness : Nat)
  | vspace (tenthsCm : Nat)

/-- Story contribution of one article at position i: a divider before
every article except the first, the title, the metadata line joining
author and non-empty date with a bullet separator, then the classified
content flowables. -/
def articleSection (i : Nat) (a : Article) : List Flow :=
  (if 0 < i then [.vspace 5, .hline 1, .vspace 3] else []) ++
  [Flow.para "ArticleTitle" a.title,
   Flow.para "ArticleMeta" (a.author ++ (if a.date == "" then "" else " • " ++ a.date))] ++
  (htmlToFlowables a.content).map (fun st => Flow.para st.1 st.2)

/-- Full story: masthead title, date line, rule and spacer, followed by
every article section in order. -/
def buildStory (today : String) (articles : List Article) : List Flow :=
  [Flow.para "NewspaperTitle" "THE WEEKLY",
   Flow.para "NewspaperDate" today,
   Flow.hline 2,
   Flow.vspace 3] ++
  (articles.enum.flatMap (fun p => articleSection p.1 p.2))

/-- Fetch loop of main: each URL is fetched in order, a failure is caught
and the URL skipped, successes accumulate in input order. -/
def fetchArticles (fetch : String → Except String Article) : List String → List Article
  | [] => []
  | u :: rest =>
    match fetch u with
    | .ok a => a :: fetchArticles fetch rest
    | .error _ => fetchArticles fetch rest

/-- Tail of main: when no article survived fetching the run aborts with
the empty batch error before any document is generated; otherwise the
document story is built from the surviving articles. -/
def mainRun (fetch : String → Except String Article) (today : String)
    (urls : List String) : Except String (List Flow) :=
  let articles := fetchArticles fetch urls
  if articles.isEmpty then .error "No articles were successfully fetched"
  else .ok (buildStory today articles)

/-- Simultaneous induction principle for nodes and node lists. -/
theorem Node.pairInduction (P : Node → Prop) (Q : List Node → Prop)
    (htext : ∀ s, P (.text s))
    (helem : ∀ t a c, Q c → P (.elem t a c))
    (hnil : Q [])
    (hcons : ∀ n ns, P n → Q ns → Q (n :: ns)) :
    (∀ n, P n) ∧ (∀ ns, Q ns) := by
  have hP : ∀ n, P n := fun n =>
    @Node.rec P Q htext helem hnil hcons n
  refine ⟨hP, ?_⟩
  intro ns
  induction ns with
  | nil => exact hnil
  | cons n rest ih => exact hcons n rest (hP n) ih

/-- Ordered list rendering as the specification words it: successive
items are numbered with a one-based position followed by a dot and a
space, the position counting only the items actually emitted. -/
def specNumberedItems (pos : Nat) : List String → List (String × String)
  | [] => []
  | t :: ts => ("ColumnBody", toString pos ++ ". " ++ t) :: specNumberedItems (pos + 1) ts

/-!
Concrete inputs used to exercise the embedded pipeline on the
documented example behaviours.
-/

/-- Markup fragment with a trailing References section followed by a
further heading. -/
def refExampleMarkup : List Node :=
  [Node.elem "h2" [] [Node.text "References"],
   Node.elem "p" [] [Node.text "cite 1"],
   Node.elem "h2" [] [Node.text "Next"],
   Node.elem "p" [] [Node.text "kept"]]

/-- Markup fragment with two empty paragraphs and a real one. -/
def emptyParasMarkup : List Node :=
  [Node.elem "p" [] [],
   Node.elem "p" [] [Node.text "   "],
   Node.elem "p" [] [Node.text "Real text"]]

/-- Markup fragment with nested div wrappers. -/
def divExampleMarkup : List Node :=
  [Node.elem "div" []
    [Node.elem "p" [] [Node.text "A"],
     Node.elem "div" [] [Node.elem "p" [] [Node.text "B"]]]]

/-- Full document whose content sits under a body element. -/
def bodyExampleMarkup : List Node :=
  [Node.elem "html" [] [Node.elem "body" [] [Node.elem "p" [] [Node.text "X"]]]]

/-- Markup fragment with two separate ordered lists, one list item of
the first having empty text. -/
def twoListsMarkup : List Node :=
  [Node.elem "ol" []
    [Node.elem "li" [] [Node.text "alpha"],
     Node.elem "li" [] [Node.text ""],
     Node.elem "li" [] [Node.text "beta"]],
   Node.elem "ol" [] [Node.elem "li" [] [Node.text "gamma"]]]

/-- A reader view URL whose canonical link points at a second reader
view URL. -/
def rvUrl0 : String := "https://demo.substack.com/home/post/p-100"

/-- A second reader view URL whose canonical link points at the real
article URL. -/
def rvUrl1 : String := "https://demo.substack.com/home/post/p-200"

/-- The real article URL at the end of the canonical chain. -/
def realUrl : String := "https://demo.substack.com/p/real-article"

/-- Page served at rvUrl0: only a canonical link to rvUrl1. -/
def rvPage0 : List Node :=
  [Node.elem "html" []
    [Node.elem "head" []
      [Node.elem "link" [("rel", "canonical"), ("href", rvUrl1)] []]]]

/-- Page served at rvUrl1: only a canonical link to realUrl. -/
def rvPage1 : List Node :=
  [Node.elem "html" []
    [Node.elem "head" []
      [Node.elem "link" [("rel", "canonical"), ("href", realUrl)] []]]]

/-- Page served at realUrl: a titled Substack post. -/
def realPage : List Node :=
  [Node.elem "html" []
    [Node.elem "body" []
      [Node.elem "h1" [("class", "post-title")] [Node.text "The Real Article"]]]]

/-- Web serving a canonical chain of length two before the real page. -/
def chainWeb : String → Option (List Node) := fun u =>
  if u == rvUrl0 then some rvPage0
  else if u == rvUrl1 then some rvPage1
  else if u == realUrl then some realPage
  else none

/-- A reader view URL whose canonical link points back at itself. -/
def cycleUrl : String := "https://loop.substack.com/home/post/p-1"

/-- Page served at cycleUrl: a canonical link forming a self-cycle. -/
def cyclePage : List Node :=
  [Node.elem "link" [("rel", "canonical"), ("href", cycleUrl)] []]

/-- Web on which the canonical chain is a cycle. -/
def cycleWeb : String → Option (List Node) := fun u =>
  if u == cycleUrl then some cyclePage else none

/-- A small concrete article used to exercise the batch pipeline. -/
def sampleArticleA : Article :=
  { title := "First"
    author := "Written by Ann"
    date := "2024-01-01"
    content := [Node.elem "p" [] [Node.text "first body"]]
    url := "https://one.example/a" }

/-- A second concrete article for the batch pipeline. -/
def sampleArticleB : Article :=
  { title := "Second"
    author := "Written by Ben"
    date := ""
    content := []
    url := "https://two.example/b" }

/-- A fetcher that fails on the first URL of the sample batch and
succeeds on the other two. -/
def sampleFetch : String → Except String Article := fun u =>
  if u == "https://bad.example/x" then .error "network error"
  else if u == "https://one.example/a" then .ok sampleArticleA
  else if u == "https://two.example/b" then .ok sampleArticleB
  else .error "not found"

/-!
General lemmas about the embedded operations.
-/

theorem strData_append (a b : String) : (a ++ b).data = a.data ++ b.data := by
  cases a
  cases b
  rfl

theorem strExt {a b : String} (h : a.data = b.data) : a = b := by
  cases a
  cases b
  cases h
  rfl

theorem str_append_ne_left (a b : String) (h : a ≠ "") : a ++ b ≠ "" := by
  intro he
  apply h
  apply strExt
  have hd := congrArg String.data he
  rw [strData_append] at hd
  have h2 : a.data = [] := (List.append_eq_nil.mp hd).1
  simpa using h2

theorem str_append_ne_right (a b : String) (h : b ≠ "") : a ++ b ≠ "" := by
  intro he
  apply h
  apply strExt
  have hd := congrArg String.data he
  rw [strData_append] at hd
  have h2 : b.data = [] := (List.append_eq_nil.mp hd).2
  simpa using h2

theorem matchesAt_iff (pat : List Char) :
    ∀ l, matchesAt pat l = true ↔ ∃ t, l = pat ++ t := by
  induction pat with
  | nil =>
    intro l
    simp [matchesAt]
  | cons p ps ih =>
    intro l
    cases l with
    | nil =>
      simp [matchesAt]
    | cons c cs =>
      simp only [matchesAt, Bool.and_eq_true, beq_iff_eq, ih cs]
      constructor
      · rintro ⟨rfl, t, rfl⟩
        exact ⟨t, rfl⟩
      · rintro ⟨t, ht⟩
        injection ht with h1 h2
        exact ⟨h1.symm, t, h2⟩

theorem containsAux_iff (pat : List Char) :
    ∀ l, containsAux pat l = true ↔ ∃ s t, l = s ++ (pat ++ t) := by
  intro l
  induction l with
  | nil =>
    simp only [containsAux, matchesAt_iff]
    constructor
    · rintro ⟨t, ht⟩
      exact ⟨[], t, ht⟩
    · rintro ⟨s, t, ht⟩
      rcases List.append_eq_nil.mp ht.symm with ⟨rfl, h2⟩
      exact ⟨t, by simpa using ht⟩
  | cons c cs ih =>
    simp only [containsAux, Bool.or_eq_true, matchesAt_iff, ih]
    constructor
    · rintro (⟨t, ht⟩ | ⟨s, t, ht⟩)
      · exact ⟨[], t, by simpa using ht⟩
      · exact ⟨c :: s, t, by simp [ht]⟩
    · rintro ⟨s, t, ht⟩
      cases s with
      | nil =>
        exact Or.inl ⟨t, by simpa using ht⟩
      | cons c' s' =>
        injection ht with h1 h2
        exact Or.inr ⟨s', t, h2⟩

theorem strContains_iff (s pat : String) :
    strContains s pat = true ↔ ∃ pre post : String, s = pre ++ pat ++ post := by
  unfold strContains
  rw [containsAux_iff]
  constructor
  · rintro ⟨a, b, hab⟩
    refine ⟨⟨a⟩, ⟨b⟩, strExt ?_⟩
    rw [strData_append, strData_append]
    simpa using hab
  · rintro ⟨pre, post, hpp⟩
    refine ⟨pre.data, post.data, ?_⟩
    have := congrArg String.data hpp
    rw [strData_append, strData_append] at this
    simpa using this

theorem pyOr_ne_empty (a : Option String) (d : String) (h : d ≠ "") : pyOr a d ≠ "" := by
  unfold pyOr
  match a with
  | none => exact h
  | some s =>
    by_cases hs : s = ""
    · simp [hs, h]
    · simp [hs]

theorem formatAuthor_ne_empty (a p : Option String) : formatAuthor a p ≠ "" := by
  unfold formatAuthor
  split
  · apply str_append_ne_left
    apply str_append_ne_left
    apply str_append_ne_left
    decide
  · split
    · apply str_append_ne_left
      decide
    · decide

theorem isRefHeading_text (s : String) : isRefHeading (.text s) = false := rfl

theorem hasRef_false_elim (n : Node) (h : hasRefHeading n = false) :
    isRefHeading n = false := by
  cases n with
  | text s => rfl
  | elem t a c =>
    simp only [hasRefHeading, Bool.or_eq_false_iff] at h
    exact h.1

theorem hasRefList_false_elim (n : Node) (ns : List Node)
    (h : hasRefHeadingList (n :: ns) = false) :
    hasRefHeading n = false ∧ hasRefHeadingList ns = false := by
  simpa only [hasRefHeadingList, Bool.or_eq_false_iff] using h

theorem removeRefs_no_find :
    (∀ n, hasRefHeading n = false → removeRefsNode n = (n, false)) ∧
    (∀ ns, hasRefHeadingList ns = false → removeRefsList ns = (ns, false)) := by
  refine Node.pairInduction _ _ ?_ ?_ ?_ ?_
  · intro s _
    rfl
  · intro t a c ih h
    simp only [hasRefHeading, Bool.or_eq_false_iff] at h
    simp [removeRefsNode, ih h.2]
  · intro _
    rfl
  · intro n ns ihn ihns h
    obtain ⟨hn, hns⟩ := hasRefList_false_elim n ns h
    simp [removeRefsList, hasRef_false_elim n hn, ihn hn, ihns hns]

theorem removeRefsList_append (pre rest : List Node)
    (h : hasRefHeadingList pre = false) :
    removeRefsList (pre ++ rest) =
      (pre ++ (removeRefsList rest).1, (removeRefsList rest).2) := by
  induction pre with
  | nil => simp
  | cons n pre' ih =>
    obtain ⟨hn, hpre'⟩ := hasRefList_false_elim n pre' h
    simp [removeRefsList, hasRef_false_elim n hn,
      removeRefs_no_find.1 n hn, ih hpre']

theorem deleteUntil_to_heading (mid : List Node) (nextH : Node) (post : List Node)
    (hmid : mid.all (fun n => !isH123 n) = true) (hn : isH123 nextH = true) :
    deleteUntilHeading (mid ++ nextH :: post) = nextH :: post := by
  induction mid with
  | nil => simp [deleteUntilHeading, hn]
  | cons m mid' ih =>
    simp only [List.all_cons, Bool.and_eq_true, Bool.not_eq_true'] at hmid
    simpa [deleteUntilHeading, hmid.1] using ih (by simpa using hmid.2)

theorem deleteUntil_all (mid : List Node)
    (hmid : mid.all (fun n => !isH123 n) = true) :
    deleteUntilHeading mid = [] := by
  induction mid with
  | nil => rfl
  | cons m mid' ih =>
    simp only [List.all_cons, Bool.and_eq_true, Bool.not_eq_true'] at hmid
    simpa [deleteUntilHeading, hmid.1] using ih (by simpa using hmid.2)

theorem listItemsGo_text_ne (isOl : Bool) :
    ∀ (lis : List Node) (acc : List (String × String)),
      (∀ x ∈ acc, x.2 ≠ "") → ∀ x ∈ listItemsGo isOl acc lis, x.2 ≠ "" := by
  intro lis
  induction lis with
  | nil =>
    intro acc hacc x hx
    exact hacc x hx
  | cons li rest ih =>
    intro acc hacc x hx
    simp only [listItemsGo] at hx
    by_cases ht : getTextStrip li = ""
    · rw [if_pos (by simpa using ht)] at hx
      exact ih acc hacc x hx
    · rw [if_neg (by simpa using ht)] at hx
      refine ih _ ?_ x hx
      intro y hy
      rcases List.mem_append.mp hy with hy | hy
      · exact hacc y hy
      · rcases List.mem_singleton.mp hy with rfl
        apply str_append_ne_right
        exact ht

theorem processFlows_text_ne :
    (∀ n, ∀ x ∈ processElement n, x.2 ≠ "") ∧
    (∀ ns, ∀ x ∈ processList ns, x.2 ≠ "") := by
  refine Node.pairInduction _ _ ?_ ?_ ?_ ?_
  · intro s x hx
    simp [processElement] at hx
  · intro t a c ih x hx
    simp only [processElement] at hx
    split at hx
    · split at hx
      · simp at hx
      · next hne =>
        rcases List.mem_singleton.mp hx with rfl
        simpa using hne
    · split at hx
      · split at hx
        · simp at hx
        · next hne =>
          rcases List.mem_singleton.mp hx with rfl
          simpa using hne
      · split at hx
        · split at hx
          · simp at hx
          · next hne =>
            rcases List.mem_singleton.mp hx with rfl
            simpa using hne
        · split at hx
          · split at hx
            · simp at hx
            · next hne =>
              rcases List.mem_singleton.mp hx with rfl
              simpa using hne
          · split at hx
            · exact listItemsGo_text_ne _ _ [] (by simp) x hx
            · split at hx
              · exact ih x hx
              · simp at hx
  · intro x hx
    simp [processList] at hx
  · intro n ns ihn ihns x hx
    simp only [processList] at hx
    rcases List.mem_append.mp hx with hx | hx
    · split at hx
      · exact ihn x hx
      · simp at hx
    · exact ihns x hx

theorem dot_space_merge (a t : String) : a ++ "." ++ " " ++ t = a ++ ". " ++ t := by
  apply strExt
  simp [strData_append]

theorem bullet_space_merge (t : String) : "•" ++ " " ++ t = "• " ++ t := by
  apply strExt
  simp [strData_append]

theorem listItemsGo_ol_eq :
    ∀ (lis : List Node) (acc : List (String × String)),
      listItemsGo true acc lis =
        acc ++ specNumberedItems (acc.length + 1)
          ((lis.map getTextStrip).filter (fun t => !(t == ""))) := by
  intro lis
  induction lis with
  | nil =>
    intro acc
    simp [listItemsGo, specNumberedItems]
  | cons li rest ih =>
    intro acc
    simp only [listItemsGo, List.map_cons, List.filter_cons]
    by_cases ht : getTextStrip li = ""
    · rw [if_pos (by simpa using ht)]
      rw [if_neg (by simp [ht])]
      exact ih acc
    · rw [if_neg (by simpa using ht)]
      try simp only [reduceIte]
      rw [if_pos (by simp [ht])]
      rw [ih]
      simp [specNumberedItems, dot_space_merge, List.append_assoc]

theorem listItemsGo_ul_eq :
    ∀ (lis : List Node) (acc : List (String × String)),
      listItemsGo false acc lis =
        acc ++ ((lis.map getTextStrip).filter (fun t => !(t == ""))).map
          (fun t => ("ColumnBody", "• " ++ t)) := by
  intro lis
  induction lis with
  | nil =>
    intro acc
    simp [listItemsGo]
  | cons li rest ih =>
    intro acc
    simp only [listItemsGo, List.map_cons, List.filter_cons]
    by_cases ht : getTextStrip li = ""
    · rw [if_pos (by simpa using ht)]
      rw [if_neg (by simp [ht])]
      exact ih acc
    · rw [if_neg (by simpa using ht)]
      rw [if_neg Bool.false_ne_true]
      rw [if_pos (by simp [ht])]
      rw [ih]
      simp [bullet_space_merge, List.append_assoc]

theorem processList_eq_flatMap :
    ∀ ns : List Node, processList ns = (ns.filter Node.isTag).flatMap processElement := by
  intro ns
  induction ns with
  | nil => rfl
  | cons n rest ih =>
    simp only [processList, List.filter_cons]
    by_cases hn : n.isTag = true
    · rw [if_pos hn, if_pos (by simpa using hn)]
      simp [ih]
    · rw [if_neg hn, if_neg (by simpa using hn)]
      simp [ih]

theorem fetchArticles_eq_filterMap (fetch : String → Except String Article) :
    ∀ urls : List String,
      fetchArticles fetch urls = urls.filterMap (fun u => (fetch u).toOption) := by
  intro urls
  induction urls with
  | nil => rfl
  | cons u rest ih =>
    simp only [fetchArticles, List.filterMap_cons]
    cases hu : fetch u with
    | ok a => simp [Except.toOption, ih]
    | error e => simp [Except.toOption, ih]

theorem pyOr_some_of_ne (s d : String) (h : s ≠ "") : pyOr (some s) d = s := by
  simp [pyOr, h]

/-- Claim C2: the author display string of site-specific extraction is
composed exactly as specified: author and publication both resolved and
different give the long form, a resolved author with no publication or a
publication equal to the author gives the short form, no resolved author
gives the placeholder, and in particular equal author and publication
Jane give the short form; the author field of the extracted Article is
exactly this composition applied to the resolved author and publication. -/
theorem claim_C2 :
    (∀ a p : String, a ≠ "" → p ≠ "" → a ≠ p →
      formatAuthor (some a) (some p) = "Written by " ++ a ++ " from " ++ p) ∧
    (∀ a : String, a ≠ "" →
      formatAuthor (some a) none = "Written by " ++ a ∧
      formatAuthor (some a) (some "") = "Written by " ++ a ∧
      formatAuthor (some a) (some a) = "Written by " ++ a) ∧
    (∀ p : Option String,
      formatAuthor none p = "Unknown Author" ∧
      formatAuthor (some "") p = "Unknown Author") ∧
    formatAuthor (some "Jane") (some "Jane") = "Written by Jane" ∧
    (∀ (doc : List Node) (url : String),
      (extractSubstack doc url).author =
        formatAuthor (findAuthor doc) (findPublication doc)) := by
  refine ⟨?_, ?_, ?_, ?_, ?_⟩
  · intro a p ha hp hne
    simp [formatAuthor, pyTruthy, ha, hp, hne]
  · intro a ha
    refine ⟨?_, ?_, ?_⟩ <;> simp [formatAuthor, pyTruthy, ha]
  · intro p
    constructor <;> simp [formatAuthor, pyTruthy]
  · rfl
  · intro doc url
    show pyOr (some (formatAuthor (findAuthor doc) (findPublication doc))) "Unknown Author" = _
    exact pyOr_some_of_ne _ _ (formatAuthor_ne_empty _ _)

theorem claim_C2_witness :
    formatAuthor (some "Jane") (some "The Weekly") = "Written by Jane from The Weekly" ∧
    formatAuthor (some "Jane") none = "Written by Jane" :=
  ⟨claim_C2.1 "Jane" "The Weekly" (by decide) (by decide) (by decide),
   (claim_C2.2.1 "Jane" (by decide)).1⟩

/-- Claim C4: every extracted Article has a non-empty title and a
non-empty author, under both the site-specific and the generic strategy;
when the heuristics resolve nothing the placeholders Untitled and
Unknown Author appear, as shown on the empty document. -/
theorem claim_C4 :
    (∀ (doc : List Node) (url : String),
      (extractSubstack doc url).title ≠ "" ∧ (extractSubstack doc url).author ≠ "") ∧
    (∀ (doc : List Node) (url : String),
      (extractGeneral doc url).title ≠ "" ∧ (extractGeneral doc url).author ≠ "") ∧
    ((extractSubstack [] "u").title = "Untitled" ∧
     (extractSubstack [] "u").author = "Unknown Author" ∧
     (extractGeneral [] "u").title = "Untitled" ∧
     (extractGeneral [] "u").author = "Unknown Author") := by
  refine ⟨?_, ?_, rfl, rfl, rfl, rfl⟩
  · intro doc url
    constructor
    · exact pyOr_ne_empty _ _ (by decide)
    · show pyOr (some (formatAuthor (findAuthor doc) (findPublication doc))) "Unknown Author" ≠ ""
      exact pyOr_ne_empty _ _ (by decide)
  · intro doc url
    constructor
    · exact pyOr_ne_empty _ _ (by decide)
    · show pyOr (findAuthorGeneral doc) "Unknown Author" ≠ ""
      exact pyOr_ne_empty _ _ (by decide)

/-- Claim C10: extraction dispatch selects the site-specific strategy
exactly when the string substack.com occurs anywhere in the URL, host or
not; a URL with that string in its path is routed to the site-specific
strategy, and every other URL to the generic one. -/
theorem claim_C10 :
    (∀ url : String, isSubstackUrl url = true ↔
      ∃ pre post : String, url = pre ++ "substack.com" ++ post) ∧
    isSubstackUrl "https://example.com/about-substack.com" = true ∧
    (∀ (web : String → Option (List Node)) (fuel : Nat),
      fetchArticleF web fuel "https://example.com/about-substack.com" =
        fetchSubstackF web fuel "https://example.com/about-substack.com") ∧
    (∀ (web : String → Option (List Node)) (fuel : Nat) (url : String),
      isSubstackUrl url = false →
        fetchArticleF web fuel url = some (fetchGeneralE web url)) := by
  refine ⟨?_, rfl, ?_, ?_⟩
  · intro url
    exact strContains_iff url "substack.com"
  · intro web fuel
    rfl
  · intro web fuel url h
    simp [fetchArticleF, h]

theorem claim_C10_witness :
    (∃ pre post : String,
      "https://example.com/about-substack.com" = pre ++ "substack.com" ++ post) ∧
    fetchArticleF (fun _ => none) 1 "https://example.org/plain" =
      some (fetchGeneralE (fun _ => none) "https://example.org/plain") :=
  ⟨(claim_C10.1 "https://example.com/about-substack.com").mp (by decide),
   claim_C10.2.2.2 (fun _ => none) 1 "https://example.org/plain" (by decide)⟩

/-- Claim C3: classification preprocessing removes exactly one trailing
References section: the first heading of level 1 to 3 whose stripped
text equals references case-insensitively is deleted together with every
following sibling node up to, and excluding, the next heading of level 1
to 3, or the end of the sibling list when none follows; everything after
that next heading, including any further References section, is left
untouched, and the documented example classifies to exactly a Heading
Next followed by a Paragraph kept. -/
theorem claim_C3 :
    (∀ (pre : List Node) (refH : Node) (mid : List Node) (nextH : Node) (post : List Node),
      hasRefHeadingList pre = false →
      isRefHeading refH = true →
      mid.all (fun n => !isH123 n) = true →
      isH123 nextH = true →
      (removeRefsList (pre ++ refH :: (mid ++ nextH :: post))).1 = pre ++ nextH :: post) ∧
    (∀ (pre : List Node) (refH : Node) (mid : List Node),
      hasRefHeadingList pre = false →
      isRefHeading refH = true →
      mid.all (fun n => !isH123 n) = true →
      (removeRefsList (pre ++ refH :: mid)).1 = pre) ∧
    htmlToFlowables refExampleMarkup =
      [("ArticleHeading", "Next"), ("ColumnBody", "kept")] := by
  refine ⟨?_, ?_, rfl⟩
  · intro pre refH mid nextH post hpre href hmid hnext
    rw [removeRefsList_append pre _ hpre]
    simp only [removeRefsList, if_pos href]
    rw [deleteUntil_to_heading mid nextH post hmid hnext]
  · intro pre refH mid hpre href hmid
    rw [removeRefsList_append pre _ hpre]
    simp only [removeRefsList, if_pos href]
    simp [deleteUntil_all mid hmid]

theorem claim_C3_witness :
    (removeRefsList refExampleMarkup).1 =
      [Node.elem "h2" [] [Node.text "Next"], Node.elem "p" [] [Node.text "kept"]] :=
  claim_C3.1 [] (Node.elem "h2" [] [Node.text "References"])
    [Node.elem "p" [] [Node.text "cite 1"]]
    (Node.elem "h2" [] [Node.text "Next"])
    [Node.elem "p" [] [Node.text "kept"]]
    rfl rfl rfl rfl

/-- Claim C5: classification never emits a flowable with empty text:
every recognized element whose stripped flattened text is empty is
dropped, and the documented example with two empty paragraphs yields
exactly one body paragraph. -/
theorem claim_C5 :
    (∀ (markup : List Node), ∀ x ∈ htmlToFlowables markup, x.2 ≠ "") ∧
    htmlToFlowables emptyParasMarkup = [("ColumnBody", "Real text")] := by
  refine ⟨?_, rfl⟩
  intro markup x hx
  unfold htmlToFlowables at hx
  exact processFlows_text_ne.2 _ x hx

theorem claim_C5_witness :
    ("ColumnBody", "Real text") ∈ htmlToFlowables emptyParasMarkup ∧
    ("Real text" : String) ≠ "" :=
  ⟨by rw [claim_C5.2]; exact List.mem_singleton.mpr rfl,
   claim_C5.1 emptyParasMarkup ("ColumnBody", "Real text")
     (by rw [claim_C5.2]; exact List.mem_singleton.mpr rfl)⟩

/-- Claim C6: ordered list items are numbered with the one-based count
of items already emitted for that same list, items with empty text
consuming no position; only direct li children contribute, unordered
items get a bullet marker, and numbering restarts at one for each
distinct ordered list as the two-list example shows. -/
theorem claim_C6 :
    (∀ (attrs : List (String × String)) (children : List Node),
      processElement (.elem "ol" attrs children) =
        specNumberedItems 1
          (((children.filter (fun c => c.tagName == some "li")).map getTextStrip).filter
            (fun t => !(t == "")))) ∧
    (∀ (attrs : List (String × String)) (children : List Node),
      processElement (.elem "ul" attrs children) =
        (((children.filter (fun c => c.tagName == some "li")).map getTextStrip).filter
          (fun t => !(t == ""))).map (fun t => ("ColumnBody", "• " ++ t))) ∧
    htmlToFlowables twoListsMarkup =
      [("ColumnBody", "1. alpha"), ("ColumnBody", "2. beta"), ("ColumnBody", "1. gamma")] := by
  refine ⟨?_, ?_, rfl⟩
  · intro attrs children
    show listItemsGo true [] (children.filter (fun c => c.tagName == some "li")) = _
    rw [listItemsGo_ol_eq]
    simp
  · intro attrs children
    show listItemsGo false [] (children.filter (fun c => c.tagName == some "li")) = _
    rw [listItemsGo_ul_eq]
    simp

/-- Claim C7: classification walks the top-level children of the body,
or of the markup root when there is no body; a div contributes no block
of its own, its tag children being classified recursively and spliced in
order, as the nested div example shows; unrecognized element kinds
produce nothing and are not recursed into. -/
theorem claim_C7 :
    (∀ (attrs : List (String × String)) (children : List Node),
      processElement (.elem "div" attrs children) =
        (children.filter Node.isTag).flatMap processElement) ∧
    htmlToFlowables divExampleMarkup = [("ColumnBody", "A"), ("ColumnBody", "B")] ∧
    htmlToFlowables bodyExampleMarkup = [("ColumnBody", "X")] ∧
    (∀ (t : String) (attrs : List (String × String)) (children : List Node),
      t ∉ (["p", "h1", "h2", "h3", "blockquote", "ul", "ol", "div"] : List String) →
        processElement (.elem t attrs children) = []) := by
  refine ⟨?_, rfl, rfl, ?_⟩
  · intro attrs children
    show processList children = _
    exact processList_eq_flatMap children
  · intro t attrs children h
    simp only [List.mem_cons, List.mem_singleton, not_or] at h
    obtain ⟨h1, h2, h3, h4, h5, h6, h7, h8, -⟩ := h
    simp [processElement, h1, h2, h3, h4, h5, h6, h7, h8]

theorem claim_C7_witness :
    processElement (.elem "span" [] [Node.elem "p" [] [Node.text "inside"]]) = [] :=
  claim_C7.2.2.2 "span" [] [Node.elem "p" [] [Node.text "inside"]] (by decide)

/-- Claim C8: a failed fetch is caught and its URL skipped without
aborting the batch: the surviving articles are exactly the successfully
fetched ones in input order, and a batch of one failing and two
succeeding URLs produces the document story built from exactly those two
articles in their original relative order. -/
theorem claim_C8 :
    (∀ (fetch : String → Except String Article) (urls : List String),
      fetchArticles fetch urls = urls.filterMap (fun u => (fetch u).toOption)) ∧
    (∀ (fetch : String → Except String Article) (today : String)
       (u1 u2 u3 : String) (e : String) (a2 a3 : Article),
      fetch u1 = .error e → fetch u2 = .ok a2 → fetch u3 = .ok a3 →
      mainRun fetch today [u1, u2, u3] = .ok (buildStory today [a2, a3])) := by
  constructor
  · intro fetch urls
    exact fetchArticles_eq_filterMap fetch urls
  · intro fetch today u1 u2 u3 e a2 a3 h1 h2 h3
    simp [mainRun, fetchArticles, h1, h2, h3]

theorem claim_C8_witness :
    mainRun sampleFetch "today"
      ["https://bad.example/x", "https://one.example/a", "https://two.example/b"] =
      .ok (buildStory "today" [sampleArticleA, sampleArticleB]) :=
  claim_C8.2 sampleFetch "today"
    "https://bad.example/x" "https://one.example/a" "https://two.example/b"
    "network error" sampleArticleA sampleArticleB rfl rfl rfl

/-- Claim C9: when every URL of the batch fails to fetch, no document is
produced: the run stops with the fatal empty batch error before any
story is built. -/
theorem claim_C9 :
    ∀ (fetch : String → Except String Article) (today : String) (urls : List String),
      (∀ u ∈ urls, (fetch u).toOption = none) →
      mainRun fetch today urls = .error "No articles were successfully fetched" := by
  intro fetch today urls h
  have hempty : fetchArticles fetch urls = [] := by
    rw [fetchArticles_eq_filterMap]
    exact List.filterMap_eq_nil_iff.mpr h
  simp [mainRun, hempty]

theorem claim_C9_witness :
    mainRun (fun _ => .error "network error") "today" ["https://a.example", "https://b.example"] =
      .error "No articles were successfully fetched" :=
  claim_C9 (fun _ => .error "network error") "today"
    ["https://a.example", "https://b.example"] (fun _ _ => rfl)

/-- Claim C1, counterexample: the source follows canonical links with no
hop limit.  On a web where a reader view URL points at a second reader
view URL which points at the real article, extraction follows the chain
of length two and returns the article of the final page, whereas a
single redirect hop would have stopped at the second reader view page,
whose extraction carries the placeholder title. -/
theorem claim_C1_counterexample :
    fetchSubstackF chainWeb 3 rvUrl0 = some (.ok (extractSubstack realPage realUrl)) ∧
    (extractSubstack realPage realUrl).title = "The Real Article" ∧
    (extractSubstack rvPage1 rvUrl1).title = "Untitled" :=
  ⟨rfl, rfl, rfl⟩

/-- Claim C1, amended: for a reader view URL the site-specific fetch
resolves the canonical link and recursively restarts extraction at it
with no hop limit: every reader view page carrying a non-empty canonical
link triggers one more fetch and extraction, so canonical chains are
followed to arbitrary depth, and on a canonical cycle the recursion
never terminates, which the fuel-indexed embedding expresses by
returning no result at every fuel bound; a page without a usable
canonical link, or a URL that is not a reader view URL, is extracted
directly. -/
theorem claim_C1 :
    (∀ (web : String → Option (List Node)) (fuel : Nat) (url : String)
       (doc : List Node) (href : String),
      web url = some doc →
      strContains url "/home/post/" = true →
      canonicalHref doc = some href →
      fetchSubstackF web (fuel + 1) url = fetchSubstackF web fuel href) ∧
    (∀ (web : String → Option (List Node)) (fuel : Nat) (url : String)
       (doc : List Node),
      web url = some doc →
      canonicalHref doc = none →
      fetchSubstackF web (fuel + 1) url = some (.ok (extractSubstack doc url))) ∧
    (∀ fuel, fetchSubstackF cycleWeb fuel cycleUrl = none) := by
  refine ⟨?_, ?_, ?_⟩
  · intro web fuel url doc href h1 h2 h3
    simp [fetchSubstackF, h1, h2, h3]
  · intro web fuel url doc h1 h2
    by_cases hrv : strContains url "/home/post/" = true
    · simp [fetchSubstackF, h1, h2, hrv]
    · simp [fetchSubstackF, h1, h2, hrv]
  · intro fuel
    induction fuel with
    | zero => rfl
    | succ n ih => exact ih

theorem claim_C1_witness :
    fetchSubstackF chainWeb 3 rvUrl0 = fetchSubstackF chainWeb 2 rvUrl1 :=
  claim_C1.1 chainWeb 2 rvUrl0 rvPage0 rvUrl1 rfl rfl rfl

end NewsGen
